import Mathlib

/-!
Shallow embedding of the ARM/AArch64 CPU-capability detection subsystem
(`src/cpu/arm.rs` and `src/cpu/arm/darwin.rs`).

The 32-bit capability word is modelled as a `Nat` kept below `2 ^ 32`;
the Rust `!x` complement on `u32` is modelled as `x ^^^ (2 ^ 32 - 1)`.
Compile-time configuration (`cfg!(target_feature = ...)` and the
`unstable-testing-*` cargo features) is modelled by an explicit
`Config` record, and the compiled architecture by `Arch`.
-/

namespace RingCpuArm

/-- The compiled target architecture: `target_arch = "aarch64"` or
`target_arch = "arm"` (the 32-bit architecture). -/
inductive Arch where
  | aarch64 : Arch
  | arm : Arch
deriving DecidableEq

/-- Bitwise complement on a 32-bit word: Rust `!x` for `x : u32`. -/
def not32 (x : Nat) : Nat := x ^^^ (2 ^ 32 - 1)

/-- `struct Feature { mask: u32 }` from `src/cpu/arm.rs`. -/
structure Feature where
  mask : Nat
deriving DecidableEq

/-- `NEON`, mask `1 << 0`. -/
def NEON : Feature := ⟨1 <<< 0⟩

/-- `AES`, mask `1 << 2`. -/
def AES : Feature := ⟨1 <<< 2⟩

/-- `SHA256`, mask `1 << 4`. -/
def SHA256 : Feature := ⟨1 <<< 4⟩

/-- `PMULL`, mask `1 << 5`. -/
def PMULL : Feature := ⟨1 <<< 5⟩

/-- `SHA512`, mask `1 << 6`. -/
def SHA512 : Feature := ⟨1 <<< 6⟩

/-- The compile-time configuration surface consumed by `arm.rs`:
the declared `target_feature` flags and the two test-only cargo
features that feed the suppression mask. -/
structure Config where
  tf_neon : Bool
  tf_aes : Bool
  tf_sha2 : Bool
  tf_sha3 : Bool
  no_hw : Bool
  no_neon : Bool
deriving DecidableEq

/-- `cfg!(target_feature = name)` for this configuration. -/
def Config.targetFeature (c : Config) : String → Bool
  | "neon" => c.tf_neon
  | "aes" => c.tf_aes
  | "sha2" => c.tf_sha2
  | "sha3" => c.tf_sha3
  | _ => false

/-- The per-architecture entries of the `features!` macro invocation:
each feature together with the `target_feature` name gating its static
detection (note `PMULL` is gated by `"aes"`, and the 32-bit
architecture declares only `NEON`). -/
def featureEntries : Arch → List (String × Feature)
  | Arch.aarch64 =>
      [("neon", NEON), ("aes", AES), ("sha2", SHA256), ("aes", PMULL), ("sha3", SHA512)]
  | Arch.arm => [("neon", NEON)]

/-- `ALL_FEATURES` generated by the `features!` macro. -/
def ALL_FEATURES (a : Arch) : List Feature := (featureEntries a).map Prod.snd

/-- `ARMCAP_STATIC_DETECTED`: OR over all features of the mask, when the
corresponding `target_feature` is enabled for the compiled target. -/
def ARMCAP_STATIC_DETECTED (a : Arch) (c : Config) : Nat :=
  (featureEntries a).foldl
    (fun acc e => acc ||| (if c.targetFeature e.1 then e.2.mask else 0)) 0

/-- `ARMCAP_STATIC = ARMCAP_STATIC_DETECTED & !detect::FORCE_DYNAMIC_DETECTION`.
The compiled-in detector backend's `FORCE_DYNAMIC_DETECTION` word is the
parameter `fdd`. -/
def ARMCAP_STATIC (a : Arch) (c : Config) (fdd : Nat) : Nat :=
  ARMCAP_STATIC_DETECTED a c &&& not32 fdd

/-- The suppression word `filtered` computed inside `featureflags::init`:
under `unstable-testing-arm-no-hw` it covers every feature except `NEON`,
under `unstable-testing-arm-no-neon` it covers `NEON`. -/
def testSuppressionMask (a : Arch) (c : Config) : Nat :=
  (if c.no_hw then
      ((ALL_FEATURES a).foldl (fun acc feature => acc ||| feature.mask) 0) &&& not32 NEON.mask
    else 0) |||
  (if c.no_neon then NEON.mask else 0)

/-- The value `featureflags::init` publishes into `OPENSSL_armcap_P`:
`merged = ARMCAP_STATIC | (detected & !filtered)`, where `detected` is
the raw result of `detect::detect_features()`. -/
def initMerged (a : Arch) (c : Config) (fdd raw : Nat) : Nat :=
  ARMCAP_STATIC a c fdd ||| (raw &&& not32 (testSuppressionMask a c))

/-- `Feature::available`: the static fast path first, otherwise the
published capability word `w` (what `featureflags::get` returns through
a token after initialization). -/
def Feature.available (f : Feature) (a : Arch) (c : Config) (fdd w : Nat) : Bool :=
  if f.mask = f.mask &&& ARMCAP_STATIC a c fdd then true
  else decide (f.mask = f.mask &&& w)

/-! ### Darwin backend (`src/cpu/arm/darwin.rs`) -/

/-- `MIN_STATIC_FEATURES = NEON.mask | AES.mask | SHA256.mask | PMULL.mask`. -/
def MIN_STATIC_FEATURES : Nat := NEON.mask ||| AES.mask ||| SHA256.mask ||| PMULL.mask

/-- Darwin's `FORCE_DYNAMIC_DETECTION = !MIN_STATIC_FEATURES`. -/
def darwinForceDynamicDetection : Nat := not32 MIN_STATIC_FEATURES

/-- The outcome of one `libc::sysctlbyname` call: the return code `rc`,
the result size written into `len`, and the value written into `value`. -/
structure SysctlOut where
  rc : Int
  len : Nat
  value : Int

/-- The operating system, modelled as a map from the queried name to the
outcome of the `sysctlbyname` call. -/
def SysctlOracle : Type := List Nat → SysctlOut

/-- The nul-termination check of `detect_feature`: the position of the
first zero byte, plus one, must equal the buffer length. -/
def nulTerminated (name : List Nat) : Bool :=
  match name.findIdx? (fun b => b == 0) with
  | some index => index + 1 == name.length
  | none => false

/-- `sizeof(c_int)` on the supported Darwin targets. -/
def sizeOfCInt : Nat := 4

/-- `detect_feature`, instrumented: the second component records whether
the underlying `sysctlbyname` call was performed. A name that is not
exactly nul-terminated is rejected before the OS call; a nonzero return
code or an unexpected result size yields `false`. -/
def detectFeatureRun (name : List Nat) (os : SysctlOracle) : Bool × Bool :=
  if nulTerminated name = false then (false, false)
  else if (os name).rc ≠ 0 then (false, true)
  else if (os name).len ≠ sizeOfCInt then (false, true)
  else (decide ((os name).value ≠ 0), true)

/-- `detect_feature`'s boolean result. -/
def detect_feature (name : List Nat) (os : SysctlOracle) : Bool :=
  (detectFeatureRun name os).1

/-- The byte string `b"hw.optional.armv8_2_sha512\0"` (`SHA512_NAME`). -/
def SHA512_NAME : List Nat :=
  [104, 119, 46, 111, 112, 116, 105, 111, 110, 97, 108, 46,
   97, 114, 109, 118, 56, 95, 50, 95, 115, 104, 97, 53, 49, 50, 0]

/-- Darwin's `detect_features`: query only the SHA-512 capability and set
`SHA512.mask` when the query reports it present. -/
def detect_features (os : SysctlOracle) : Nat :=
  if detect_feature SHA512_NAME os then 0 ||| SHA512.mask else 0

/-! ### Compile-time assumption guards -/

/-- The `_AARCH64_HAS_NEON` build-time assertion of `arm.rs`:
`((ARMCAP_STATIC & NEON.mask) == NEON.mask) || !cfg!(target_arch = "aarch64")`. -/
def aarch64HasNeonGuard (a : Arch) (c : Config) (fdd : Nat) : Bool :=
  (ARMCAP_STATIC a c fdd &&& NEON.mask == NEON.mask) || !(a == Arch.aarch64)

/-- The `_FORCE_DYNAMIC_DETECTION_HONORED` build-time assertion:
`(ARMCAP_STATIC & detect::FORCE_DYNAMIC_DETECTION) == 0`. -/
def forceDynamicHonoredGuard (a : Arch) (c : Config) (fdd : Nat) : Bool :=
  ARMCAP_STATIC a c fdd &&& fdd == 0

/-! ### Helper lemmas -/

/-- ORing extra bits and masking back with the original word yields the
original word. -/
theorem lor_and_self (s x : Nat) : (s ||| x) &&& s = s := by
  apply Nat.eq_of_testBit_eq
  intro i
  simp only [Nat.testBit_and, Nat.testBit_or]
  cases s.testBit i <;> simp

/-- A masked word is a subset of the unmasked word. -/
theorem and_and_self (x F : Nat) : (x &&& F) &&& x = x &&& F := by
  apply Nat.eq_of_testBit_eq
  intro i
  simp only [Nat.testBit_and]
  cases x.testBit i <;> simp

/-- The statically detected mask always fits in 32 bits. -/
theorem detected_lt (a : Arch) (c : Config) : ARMCAP_STATIC_DETECTED a c < 2 ^ 32 := by
  cases a <;>
    simp only [ARMCAP_STATIC_DETECTED, featureEntries, List.foldl] <;>
    split_ifs <;> decide

/-- The test suppression mask always fits in 32 bits. -/
theorem suppression_lt (a : Arch) (c : Config) : testSuppressionMask a c < 2 ^ 32 := by
  cases a <;>
    simp only [testSuppressionMask, ALL_FEATURES, featureEntries, List.map, List.foldl] <;>
    split_ifs <;> decide

/-- A word contained in a 32-bit mask `T` has empty intersection with the
32-bit complement of `T`. -/
theorem subset_and_not32 {m T : Nat} (hT : T < 2 ^ 32) (hcov : m &&& T = m) :
    m &&& not32 T = 0 := by
  apply Nat.eq_of_testBit_eq
  intro i
  have hm := congrArg (fun x => x.testBit i) hcov
  simp only [Nat.testBit_and] at hm
  simp only [not32, Nat.testBit_and, Nat.testBit_xor, Nat.testBit_two_pow_sub_one,
    Nat.zero_testBit]
  by_cases hi : i < 32
  · simp only [hi, decide_True]
    cases hmi : m.testBit i
    · simp
    · rw [hmi] at hm
      cases hTi : T.testBit i
      · rw [hTi] at hm
        simp at hm
      · simp [hTi]
  · have hmlt : m < 2 ^ i := by
      calc m = m &&& T := hcov.symm
        _ ≤ T := Nat.and_le_right
        _ < 2 ^ 32 := hT
        _ ≤ 2 ^ i := Nat.pow_le_pow_right (by omega) (by omega)
    simp [Nat.testBit_lt_two_pow hmlt]

/-! ### Claims -/

/-- C1: for every configuration, architecture, detector backend and
detector result, the value `featureflags::init` publishes into
`OPENSSL_armcap_P` is a superset of `ARMCAP_STATIC`: masking it with
`ARMCAP_STATIC` gives back `ARMCAP_STATIC`, hence every read made
through a token after initialization observes a superset of the static
mask. -/
theorem init_publishes_superset_of_static (a : Arch) (c : Config) (fdd raw : Nat) :
    initMerged a c fdd raw &&& ARMCAP_STATIC a c fdd = ARMCAP_STATIC a c fdd := by
  unfold initMerged
  exact lor_and_self _ _

/-- C2: `Feature::available` returns true exactly when the feature's mask
is fully contained in `ARMCAP_STATIC` or fully contained in the
published capability word `w`; in particular partial containment of a
multi-bit mask yields false. -/
theorem available_iff_contained (f : Feature) (a : Arch) (c : Config) (fdd w : Nat) :
    f.available a c fdd w = true ↔
      f.mask = f.mask &&& ARMCAP_STATIC a c fdd ∨ f.mask = f.mask &&& w := by
  unfold Feature.available
  split
  · rename_i h
    exact ⟨fun _ => Or.inl h, fun _ => rfl⟩
  · rename_i h
    simp only [decide_eq_true_eq]
    exact ⟨Or.inr, fun hab => hab.resolve_left h⟩

/-- C3: a feature whose mask is fully contained in `ARMCAP_STATIC` is
reported available for every published capability word, on every
configuration and regardless of the dynamic detector's result. -/
theorem static_feature_always_available (f : Feature) (a : Arch) (c : Config) (fdd w : Nat)
    (h : f.mask = f.mask &&& ARMCAP_STATIC a c fdd) :
    f.available a c fdd w = true := by
  unfold Feature.available
  rw [if_pos h]

/-- Witness for C3: on a Darwin-style aarch64 configuration, `NEON` is
statically available even when the published word is `0`. -/
theorem static_feature_always_available_witness :
    NEON.available Arch.aarch64 ⟨true, true, true, false, false, false⟩
      darwinForceDynamicDetection 0 = true :=
  static_feature_always_available NEON Arch.aarch64 ⟨true, true, true, false, false, false⟩
    darwinForceDynamicDetection 0 (by decide)

/-- C4: initialization publishes exactly
`ARMCAP_STATIC | (raw & !testSuppressionMask)`; the suppression step can
only clear bits of the raw detector result, never set bits; and the
suppression mask is zero unless one of the test configuration flags is
enabled. -/
theorem init_merge_formula (a : Arch) (c : Config) (fdd raw : Nat) :
    initMerged a c fdd raw
        = ARMCAP_STATIC a c fdd ||| (raw &&& not32 (testSuppressionMask a c))
    ∧ (raw &&& not32 (testSuppressionMask a c)) &&& raw
        = raw &&& not32 (testSuppressionMask a c)
    ∧ (c.no_hw = false → c.no_neon = false → testSuppressionMask a c = 0) := by
  refine ⟨rfl, and_and_self _ _, ?_⟩
  intro h1 h2
  rcases c with ⟨n, ae, s2, s3, hw, nn⟩
  change hw = false at h1
  change nn = false at h2
  subst h1
  subst h2
  cases a <;> cases n <;> cases ae <;> cases s2 <;> cases s3 <;> decide

/-- Witness for C4 at a concrete configuration with the test flags off. -/
theorem init_merge_formula_witness :
    testSuppressionMask Arch.aarch64 ⟨true, true, true, false, false, false⟩ = 0 :=
  (init_merge_formula Arch.aarch64 ⟨true, true, true, false, false, false⟩ 0 0).2.2 rfl rfl

/-- C5: on the Darwin 64-bit target (any aarch64-apple configuration:
`neon`, `aes` and `sha2` declared, darwin's `FORCE_DYNAMIC_DETECTION`,
no test flags), if the OS query reports SHA-512 present then the
published word equals `MIN_STATIC_FEATURES | SHA512.mask` and
`available(SHA512)` is true. -/
theorem darwin_sha512_scenario (c : Config) (os : SysctlOracle)
    (hn : c.tf_neon = true) (ha : c.tf_aes = true) (hs2 : c.tf_sha2 = true)
    (hhw : c.no_hw = false) (hnn : c.no_neon = false)
    (hdet : detect_features os = SHA512.mask) :
    initMerged Arch.aarch64 c darwinForceDynamicDetection (detect_features os)
        = MIN_STATIC_FEATURES ||| SHA512.mask
    ∧ SHA512.available Arch.aarch64 c darwinForceDynamicDetection
        (initMerged Arch.aarch64 c darwinForceDynamicDetection (detect_features os))
      = true := by
  rw [hdet]
  rcases c with ⟨n, ae, s2, s3, hw, nn⟩
  change n = true at hn
  change ae = true at ha
  change s2 = true at hs2
  change hw = false at hhw
  change nn = false at hnn
  subst hn
  subst ha
  subst hs2
  subst hhw
  subst hnn
  cases s3 <;> exact ⟨by decide, by decide⟩

/-- Witness for C5: the `aarch64-apple-ios`-style configuration with an
OS whose `sysctlbyname` reports the SHA-512 capability. -/
theorem darwin_sha512_scenario_witness :
    initMerged Arch.aarch64 ⟨true, true, true, false, false, false⟩
        darwinForceDynamicDetection
        (detect_features (fun _ => ⟨0, 4, 1⟩))
      = MIN_STATIC_FEATURES ||| SHA512.mask
    ∧ SHA512.available Arch.aarch64 ⟨true, true, true, false, false, false⟩
        darwinForceDynamicDetection
        (initMerged Arch.aarch64 ⟨true, true, true, false, false, false⟩
          darwinForceDynamicDetection (detect_features (fun _ => ⟨0, 4, 1⟩)))
      = true :=
  darwin_sha512_scenario ⟨true, true, true, false, false, false⟩ (fun _ => ⟨0, 4, 1⟩)
    rfl rfl rfl rfl rfl (by decide)

/-- C6: `detect_feature` rejects a name buffer that is not exactly
nul-terminated (no zero byte, or an interior first zero byte) before
the OS call is performed, and treats a nonzero `sysctlbyname` return
code or an unexpected result size as "feature absent". -/
theorem detect_feature_rejects (name : List Nat) (os : SysctlOracle) :
    ((name.findIdx? (fun b => b == 0) = none ∨
        ∃ i, name.findIdx? (fun b => b == 0) = some i ∧ i + 1 ≠ name.length) →
      detectFeatureRun name os = (false, false))
    ∧ ((os name).rc ≠ 0 → detect_feature name os = false)
    ∧ ((os name).len ≠ sizeOfCInt → detect_feature name os = false) := by
  refine ⟨?_, ?_, ?_⟩
  · intro h
    have hterm : nulTerminated name = false := by
      unfold nulTerminated
      rcases h with h | ⟨i, hi, hne⟩
      · rw [h]
      · rw [hi]
        simpa using hne
    unfold detectFeatureRun
    rw [hterm]
    simp
  · intro h
    unfold detect_feature detectFeatureRun
    cases hterm : nulTerminated name <;> simp [hterm, h]
  · intro h
    unfold detect_feature detectFeatureRun
    cases hterm : nulTerminated name
    · simp [hterm]
    · by_cases hrc : (os name).rc ≠ 0 <;> simp [hterm, hrc, h]

/-- Witness for C6: a buffer with an interior zero byte is rejected with
no OS query made. -/
theorem detect_feature_rejects_witness :
    detectFeatureRun [104, 119, 0, 0] (fun _ => ⟨0, 4, 1⟩) = (false, false) :=
  (detect_feature_rejects [104, 119, 0, 0] (fun _ => ⟨0, 4, 1⟩)).1
    (Or.inr ⟨2, by decide, by decide⟩)

/-- C7 fails as stated: on a Darwin-style aarch64 configuration with
`unstable-testing-arm-no-hw` enabled, `AES` is covered by the test
suppression mask and the detector reported it present (raw word `117`),
yet `available(AES)` is `true` (the static fast path answers), not
`false` as the claim requires. -/
theorem suppression_claim_counterexample :
    AES.mask &&& testSuppressionMask Arch.aarch64 ⟨true, true, true, false, true, false⟩
        = AES.mask
    ∧ (117 : Nat) &&& AES.mask = AES.mask
    ∧ AES.available Arch.aarch64 ⟨true, true, true, false, true, false⟩
        darwinForceDynamicDetection
        (initMerged Arch.aarch64 ⟨true, true, true, false, true, false⟩
          darwinForceDynamicDetection 117)
      = true := by
  decide

/-- C7 amended: for every feature covered by the test suppression mask
whose (nonzero) mask has no bit in `ARMCAP_STATIC`, `available` reports
false after initialization regardless of the raw detector result. -/
theorem suppressed_nonstatic_unavailable (f : Feature) (a : Arch) (c : Config) (fdd raw : Nat)
    (hnz : f.mask ≠ 0)
    (hcov : f.mask &&& testSuppressionMask a c = f.mask)
    (hstat : f.mask &&& ARMCAP_STATIC a c fdd = 0) :
    f.available a c fdd (initMerged a c fdd raw) = false := by
  have hsub : f.mask &&& not32 (testSuppressionMask a c) = 0 :=
    subset_and_not32 (suppression_lt a c) hcov
  have hzero : f.mask &&& initMerged a c fdd raw = 0 := by
    apply Nat.eq_of_testBit_eq
    intro i
    have h1 := congrArg (fun x => x.testBit i) hstat
    have h2 := congrArg (fun x => x.testBit i) hsub
    simp only [Nat.testBit_and, Nat.zero_testBit] at h1 h2
    unfold initMerged
    simp only [Nat.testBit_and, Nat.testBit_or, Nat.zero_testBit]
    cases hmi : (f.mask).testBit i
    · simp
    · rw [hmi] at h1 h2
      simp only [Bool.true_and] at h1 h2
      simp [h1, h2]
  unfold Feature.available
  rw [if_neg (fun heq => hnz (heq.trans hstat))]
  exact decide_eq_false (fun heq => hnz (heq.trans hzero))

/-- Witness for the amended C7: with `unstable-testing-arm-no-hw` on a
Darwin aarch64 configuration, `SHA512` (suppressed, not static) is
unavailable even though the raw detector word contains it. -/
theorem suppressed_nonstatic_unavailable_witness :
    SHA512.available Arch.aarch64 ⟨true, true, true, false, true, false⟩
      darwinForceDynamicDetection
      (initMerged Arch.aarch64 ⟨true, true, true, false, true, false⟩
        darwinForceDynamicDetection 117)
      = false :=
  suppressed_nonstatic_unavailable SHA512 Arch.aarch64 ⟨true, true, true, false, true, false⟩
    darwinForceDynamicDetection 117 (by decide) (by decide) (by decide)

/-- C8: `ARMCAP_STATIC` and the detector's `FORCE_DYNAMIC_DETECTION`
word are disjoint for every configuration, architecture and backend,
so the `_FORCE_DYNAMIC_DETECTION_HONORED` build-time assertion always
passes. -/
theorem static_disjoint_force_dynamic (a : Arch) (c : Config) (fdd : Nat) :
    ARMCAP_STATIC a c fdd &&& fdd = 0
    ∧ forceDynamicHonoredGuard a c fdd = true := by
  have h : ARMCAP_STATIC a c fdd &&& fdd = 0 := by
    apply Nat.eq_of_testBit_eq
    intro i
    unfold ARMCAP_STATIC not32
    simp only [Nat.testBit_and, Nat.testBit_xor, Nat.testBit_two_pow_sub_one,
      Nat.zero_testBit]
    by_cases hi : i < 32
    · cases hf : fdd.testBit i <;> simp [hi, hf]
    · have hd : (ARMCAP_STATIC_DETECTED a c).testBit i = false :=
        Nat.testBit_lt_two_pow (lt_of_lt_of_le (detected_lt a c)
          (Nat.pow_le_pow_right (by omega) (by omega)))
      simp [hd]
  refine ⟨h, ?_⟩
  unfold forceDynamicHonoredGuard
  simp [h]

/-- C9: on aarch64, every configuration that passes the
`_AARCH64_HAS_NEON` build-time assertion has the `NEON` bit contained
in `ARMCAP_STATIC`. -/
theorem aarch64_neon_in_static (c : Config) (fdd : Nat)
    (h : aarch64HasNeonGuard Arch.aarch64 c fdd = true) :
    ARMCAP_STATIC Arch.aarch64 c fdd &&& NEON.mask = NEON.mask := by
  simp only [aarch64HasNeonGuard, beq_self_eq_true, Bool.not_true, Bool.or_false,
    beq_iff_eq] at h
  exact h

/-- Witness for C9: an `aarch64-apple`-style configuration passes the
assertion and indeed has `NEON` in the static mask. -/
theorem aarch64_neon_in_static_witness :
    ARMCAP_STATIC Arch.aarch64 ⟨true, true, true, false, false, false⟩
        darwinForceDynamicDetection &&& NEON.mask
      = NEON.mask :=
  aarch64_neon_in_static ⟨true, true, true, false, false, false⟩
    darwinForceDynamicDetection (by decide)

/-- C10: the Darwin detector's raw result is always `0` or exactly
`SHA512.mask`; it never sets the `NEON`, `AES`, `SHA256` or `PMULL`
bits dynamically. -/
theorem darwin_detect_only_sha512 (os : SysctlOracle) :
    (detect_features os = 0 ∨ detect_features os = SHA512.mask)
    ∧ detect_features os &&& (NEON.mask ||| AES.mask ||| SHA256.mask ||| PMULL.mask) = 0 := by
  unfold detect_features
  split
  · exact ⟨Or.inr (by decide), by decide⟩
  · exact ⟨Or.inl rfl, by decide⟩

end RingCpuArm
